import Mathlib

/-!
Verification of the PKMNTCGP card database generator (`ProcessCards.py`,
`config.py`) by a shallow embedding in Lean.  Python strings are modelled as
`String` (operated on through their underlying `List Char`), Python dicts as
insertion-ordered association lists, perceptual hashes as `List Bool`, and a
Python function that can raise an uncaught exception as `Except String`.
Network and filesystem effects are parameters (an `Env` of oracles), so the
control flow of `process_set` and of the batch `__main__` loop is embedded
exactly.
-/

/-- Decidable equality for `Except`, used to evaluate concrete runs. -/
instance {ε α : Type} [DecidableEq ε] [DecidableEq α] : DecidableEq (Except ε α) := fun x y =>
  match x, y with
  | .ok a, .ok b =>
    if h : a = b then .isTrue (by rw [h]) else .isFalse (by intro hc; cases hc; exact h rfl)
  | .error a, .error b =>
    if h : a = b then .isTrue (by rw [h]) else .isFalse (by intro hc; cases hc; exact h rfl)
  | .ok _, .error _ => .isFalse (by intro hc; cases hc)
  | .error _, .ok _ => .isFalse (by intro hc; cases hc)

/-! ## Python string primitives -/

/-- Python's `str.split(sep)` for a one-character separator: splits at every
occurrence, keeping empty segments (`"a__b".split("_") == ["a","","b"]`,
`"".split("_") == [""]`). -/
def pySplitChar (sep : Char) : List Char → List (List Char)
  | [] => [[]]
  | c :: rest =>
    if c = sep then [] :: pySplitChar sep rest
    else
      match pySplitChar sep rest with
      | [] => [[c]]
      | w :: ws => (c :: w) :: ws

/-- Join segments with a one-character separator (inverse of `pySplitChar`). -/
def joinSep (sep : Char) : List (List Char) → List Char
  | [] => []
  | [w] => w
  | w :: ws => w ++ sep :: joinSep sep ws

/-- Python whitespace for `str.split()` with no argument. -/
def isPySpace (c : Char) : Bool :=
  c = ' ' || c = '\t' || c = '\n' || c = '\r' || c = '\x0b' || c = '\x0c'

/-- Split on a character predicate, keeping empty segments. -/
def pySplitPred (p : Char → Bool) : List Char → List (List Char)
  | [] => [[]]
  | c :: rest =>
    if p c then [] :: pySplitPred p rest
    else
      match pySplitPred p rest with
      | [] => [[c]]
      | w :: ws => (c :: w) :: ws

/-- Python's `str.split()` (no argument): split on whitespace runs and drop
empty segments; the resulting words are all nonempty. -/
def pySplitWs (s : List Char) : List (List Char) :=
  (pySplitPred isPySpace s).filter (fun w => !w.isEmpty)

/-- Python's substring test `pat in s`. -/
def isInfixOfL (pat : List Char) : List Char → Bool
  | [] => pat.isPrefixOf []
  | c :: rest => pat.isPrefixOf (c :: rest) || isInfixOfL pat rest

/-- One step bound for `pyReplace`: each recursion step consumes at least one
character, so the input length is enough fuel. -/
def pyReplaceAux (pat repl : List Char) : Nat → List Char → List Char
  | _, [] => []
  | 0, s => s
  | Nat.succ n, c :: rest =>
    if pat ≠ [] ∧ pat.isPrefixOf (c :: rest) then
      repl ++ pyReplaceAux pat repl n (rest.drop (pat.length - 1))
    else c :: pyReplaceAux pat repl n rest

/-- Python's `str.replace(pat, repl)`: replace all non-overlapping occurrences
left to right.  Every call site in the source passes a nonempty pattern. -/
def pyReplace (pat repl s : List Char) : List Char :=
  pyReplaceAux pat repl s.length s

/-- Numeric value of a decimal digit character. -/
def digitVal (c : Char) : Option Nat :=
  if c.isDigit then some (c.toNat - 48) else none

/-- Value of a nonempty string of decimal digits. -/
def digitsVal : List Char → Option Nat
  | [] => none
  | [c] => digitVal c
  | c :: rest => do
    let d ← digitVal c
    let r ← digitsVal rest
    pure (d * 10 ^ rest.length + r)

/-- Python's `int(s)` on an optionally signed decimal literal; `none` models
the `ValueError` raised on any other string.  (The builtin also tolerates
surrounding whitespace and inner underscores; the card numbers fed to it here
are bare literals, where the two agree.) -/
def pyInt (s : List Char) : Option Int :=
  match s with
  | '-' :: rest => (digitsVal rest).map (fun n => -(n : Int))
  | '+' :: rest => (digitsVal rest).map Int.ofNat
  | _ => (digitsVal s).map Int.ofNat

/-- Python's `str.capitalize()`: first character uppercased, the rest
lowercased. -/
def pyCapitalize (s : String) : String :=
  match s.data with
  | [] => ""
  | c :: rest => String.mk (c.toUpper :: rest.map Char.toLower)

/-- Python's `str.lower()` (ASCII range, as used on filenames here). -/
def pyLower (s : List Char) : List Char := s.map Char.toLower

/-! ## Static configuration (`config.py`) -/

/-- `PACK_CONFIGS` from `config.py`: set name, expansion id, and the ordered
pack-name → suffix mapping. -/
def PACK_CONFIGS : List (String × String × List (String × String)) :=
  [("Genetic Apex", ("a1",
     [("charizard-pack", "C"), ("mewtwo-pack", "M"), ("pikachu-pack", "P")])),
   ("Space-Time Smackdown", ("a2",
     [("dialga-pack", "D"), ("palkia-pack", "P")])),
   ("Celestial Guardians", ("a3",
     [("celestial-guardians-lunala", "L"), ("celestial-guardians-solgaleo", "S")]))]

/-- `SET_NAME_TO_EXPANSION_ID` from `config.py` (insertion order preserved:
this is also the batch processing order). -/
def SET_NAME_TO_EXPANSION_ID : List (String × String) :=
  [("Genetic Apex", "a1"),
   ("Mythical Island", "a1a"),
   ("Space-Time Smackdown", "a2"),
   ("Triumphant Light", "a2a"),
   ("Shining Revelry", "a2b"),
   ("Celestial Guardians", "a3"),
   ("Extradimensional Crisis", "a3a")]

/-- `RARITY_MAP` from `config.py`. -/
def RARITY_MAP : List (String × Nat) :=
  [("C", 1), ("U", 2), ("R", 3), ("RR", 4), ("AR", 5), ("SR", 6), ("SAR", 7),
   ("IM", 8), ("UR", 9), ("S", 10), ("SSR", 11), ("IR", 12)]

/-- Python `dict.get` on a string-keyed insertion-ordered dict. -/
def lookupStr {α : Type} (m : List (String × α)) (k : String) : Option α :=
  (m.find? (fun p => p.1 == k)).map (fun p => p.2)

/-- The pack dictionary of a set, when the set appears in `PACK_CONFIGS`. -/
def lookupPacks (set_name : String) : Option (List (String × String)) :=
  (lookupStr PACK_CONFIGS set_name).map (fun p => p.2)

/-! ## Constants and small helpers of `ProcessCards.py` -/

def BASE_URL : String := "https://www.pokemon-zone.com"

def PROMO_SET_URL : String := "https://www.pokemon-zone.com/sets/promo-a/"

/-- `PROMO_SET_URL.replace(BASE_URL, '')`, the path fetched for promo cards. -/
def promoPath : String := String.mk (pyReplace BASE_URL.data [] PROMO_SET_URL.data)

/-- `get_pack_urls`: pack pages of a configured multi-pack set, or the single
whole-set pseudo-pack. -/
def get_pack_urls (set_name expansion_id : String) : List (String × String) :=
  match lookupPacks set_name with
  | some packs =>
    packs.map (fun p => ("/sets/" ++ expansion_id ++ "/packs/" ++ p.1 ++ "/", p.2))
  | none => [("/sets/" ++ expansion_id ++ "/", "")]

/-- The loop `for pack_name, pack_suffix in packs: if pack_name in pack_url`
shared by `get_card_set` and `get_card_set_name`.  Evaluating `pack_name in
None` raises `TypeError`, modelled by `Except.error`. -/
def findPack (packs : List (String × String)) (pack_url : Option String) :
    Except String (Option (String × String)) :=
  match packs with
  | [] => .ok none
  | (n, sfx) :: rest =>
    match pack_url with
    | none => .error "TypeError"
    | some pu =>
      if isInfixOfL n.data pu.data then .ok (some (n, sfx))
      else findPack rest pack_url

/-- `set_name.split()[0]`; `IndexError` if the name is empty or whitespace. -/
def pyFirstWord (s : String) : Except String String :=
  match pySplitWs s.data with
  | [] => .error "IndexError"
  | w :: _ => .ok (String.mk w)

/-- `get_card_set_name` from `ProcessCards.py`. -/
def get_card_set_name (set_name : String) (pack_url : Option String) :
    Except String String := do
  let hit ←
    match lookupPacks set_name with
    | some packs => findPack packs pack_url
    | none => pure none
  match hit with
  | some (pack_name, _) =>
    pure (pyCapitalize (String.mk ((pySplitChar '-' pack_name.data).headD [])))
  | none =>
    if set_name = "Space-Time Smackdown" then pure "Space-Time"
    else pyFirstWord set_name

/-- `get_card_set` from `ProcessCards.py`. -/
def get_card_set (set_name : String) (pack_url : Option String)
    (base_initials : String) : Except String String := do
  match lookupPacks set_name with
  | some packs =>
    match ← findPack packs pack_url with
    | some (_, sfx) => pure (base_initials ++ sfx)
    | none => pure base_initials
  | none => pure base_initials

/-- `slug_to_card_name` from `ProcessCards.py`. -/
def slug_to_card_name (slug : String) : String :=
  String.mk (joinSep ' '
    ((pySplitChar '-' slug.data).map (fun part =>
      if part = ['e', 'x'] then ['E', 'X']
      else match part with
        | [] => []
        | c :: rest => c.toUpper :: rest.map Char.toLower)))

/-- `get_set_initials` from `ProcessCards.py`. -/
def get_set_initials (set_name : String) : String :=
  if set_name = "Space-Time Smackdown" then "STS"
  else String.mk ((pySplitWs set_name.data).map (fun w => (w.headD 'A').toUpper))

/-- `get_card_rarity_from_filename`: `filename.split("_")[5]` looked up in
`RARITY_MAP` with default `0`.  The index access raises `IndexError` when the
filename has fewer than six underscore-delimited segments. -/
def get_card_rarity_from_filename (filename : String) : Except String Nat :=
  match (pySplitChar '_' filename.data).get? 5 with
  | none => .error "IndexError"
  | some code => .ok ((lookupStr RARITY_MAP (String.mk code)).getD 0)

/-- `is_promo_card`: the `_90_` marker test. -/
def is_promo_card (filename : String) : Bool :=
  isInfixOfL "_90_".data filename.data

/-! ## Data model -/

/-- The card record built at lines 286-297 of `ProcessCards.py` (§3
`CardRecord` of the spec). -/
structure CardData where
  card_number : String
  card_name : String
  card_rarity : Nat
  card_set : String
  card_set_name : String
  card_set_base_name : String
  expansion_id : String
  card_desirability : Nat
  card_tradable : Bool
  card_obtainable : Bool
deriving DecidableEq, Repr

/-- An `online_cards` catalog entry (§3 `OnlineCardEntry`). -/
structure OnlineCard where
  image_url : String
  hash : List Bool
  is_promo : Bool
  pack_url : Option String
  is_pack_specific : Bool
deriving DecidableEq, Repr

/-- Python dict assignment `m[k] = v`: overwrite in place if the key exists,
otherwise append. -/
def dictInsert {α : Type} (m : List (String × α)) (k : String) (v : α) :
    List (String × α) :=
  if m.any (fun p => p.1 == k) then
    m.map (fun p => if p.1 == k then (p.1, v) else p)
  else m ++ [(k, v)]

/-- Python `dict.update(add)`: insert every entry of `add` in order. -/
def dictUpdate {α : Type} (m add : List (String × α)) : List (String × α) :=
  add.foldl (fun acc p => dictInsert acc p.1 p.2) m

/-! ## Local image key (lines 232-241) -/

/-- `if filename.startswith("c"): base_key = filename[1:]`. -/
def stripLeadC : List Char → List Char
  | 'c' :: rest => rest
  | s => s

/-- The `LocalImageKey` derivation: strip one leading `c`, split on
underscores, require at least four segments, join the first four back. -/
def deriveKey (filename : String) : Option String :=
  let key_parts := pySplitChar '_' (stripLeadC filename.data)
  if 4 ≤ key_parts.length then
    some (String.mk (joinSep '_' (key_parts.take 4)))
  else none

/-! ## Perceptual hash distance and the matcher (lines 243-256) -/

/-- `imagehash` hash subtraction: the Hamming distance between the two bit
patterns (the 64 bits of an 8x8 average hash). -/
def hamming (a b : List Bool) : Nat :=
  (List.zipWith (fun x y => x != y) a b).count true

/-- The minimum-distance scan, with the running best as accumulator.  New
entries win only on strictly smaller distance, so ties keep the
first-encountered entry; entries of the other promo/regular class are
skipped. -/
def bestMatchAux (h : List Bool) (isP : Bool) :
    Option (String × Nat) → List (String × OnlineCard) → Option (String × Nat)
  | best, [] => best
  | none, (url, cd) :: rest =>
    if cd.is_promo = isP then
      bestMatchAux h isP (some (url, hamming h cd.hash)) rest
    else bestMatchAux h isP none rest
  | some (bu, bd), (url, cd) :: rest =>
    if cd.is_promo = isP then
      if hamming h cd.hash < bd then
        bestMatchAux h isP (some (url, hamming h cd.hash)) rest
      else bestMatchAux h isP (some (bu, bd)) rest
    else bestMatchAux h isP (some (bu, bd)) rest

/-- The full scan starting from `best_distance = inf`, `best_match_url =
None`. -/
def bestMatch (h : List Bool) (isP : Bool) (cat : List (String × OnlineCard)) :
    Option (String × Nat) :=
  bestMatchAux h isP none cat

/-- The scan followed by the acceptance test `if best_distance > 10:
continue`. -/
def acceptMatch (h : List Bool) (isP : Bool)
    (cat : List (String × OnlineCard)) : Option (String × Nat) :=
  match bestMatch h isP cat with
  | none => none
  | some (u, d) => if 10 < d then none else some (u, d)

/-! ## Catalog builder (lines 157-213) -/

/-- One observation of a card on a pack page: record its image URL on first
sight and append the pack URL to its appearance list (lines 165-170). -/
def recordCard (st : List (String × String × List String))
    (card_url image_url pack_url : String) :
    List (String × String × List String) :=
  if st.any (fun e => e.1 == card_url) then
    st.map (fun e =>
      if e.1 == card_url then (e.1, e.2.1, e.2.2 ++ [pack_url]) else e)
  else st ++ [(card_url, image_url, [pack_url])]

/-- Scan all pack pages, building `all_cards` and `card_pack_appearances`
(keyed once per card URL, in first-appearance order). -/
def buildAppearances (pack_urls : List String)
    (fetchPage : String → List (String × String)) :
    List (String × String × List String) :=
  pack_urls.foldl
    (fun st pu => (fetchPage pu).foldl
      (fun st2 c => recordCard st2 c.1 c.2 pu) st) []

/-- The entry materialized for one regular card (lines 179-190):
pack-specific iff it appeared in exactly one pack. -/
def mkRegEntry (imgHash : String → List Bool) (image_url : String)
    (appearances : List String) : OnlineCard :=
  { image_url := image_url
    hash := imgHash image_url
    is_promo := false
    pack_url := if appearances.length = 1 then appearances.head? else none
    is_pack_specific := appearances.length == 1 }

/-- Materialize the regular-card entries, skipping cards whose image fetch
fails (lines 174-193). -/
def buildRegularEntries (app : List (String × String × List String))
    (fetchOk : String → Bool) (imgHash : String → List Bool) :
    List (String × OnlineCard) :=
  app.foldl
    (fun acc e =>
      if fetchOk e.2.1 then acc ++ [(e.1, mkRegEntry imgHash e.2.1 e.2.2)]
      else acc) []

/-- Add the promo-pool entries on top of the regular catalog (lines
199-213). -/
def addPromoEntries (cat : List (String × OnlineCard))
    (promoList : List (String × String)) (fetchOk : String → Bool)
    (imgHash : String → List Bool) : List (String × OnlineCard) :=
  promoList.foldl
    (fun acc c =>
      if fetchOk c.2 then
        dictInsert acc c.1
          { image_url := c.2
            hash := imgHash c.2
            is_promo := true
            pack_url := some PROMO_SET_URL
            is_pack_specific := true }
      else acc) cat

/-! ## Metadata deriver (lines 261-297) -/

/-- The `card_set` / `card_set_name` branch of lines 277-284. -/
def deriveSetFields (set_name base_initials : String)
    (is_promo is_pack_specific : Bool) (pack_url : Option String) :
    Except String (String × String) :=
  if is_promo then do
    let w ← pyFirstWord set_name
    pure (base_initials, w)
  else if is_pack_specific then do
    let cs ← get_card_set set_name pack_url base_initials
    let csn ← get_card_set_name set_name pack_url
    pure (cs, csn)
  else do
    let w ← pyFirstWord set_name
    pure (base_initials, w)

/-- The record literal of lines 286-297. -/
def mkCardData (set_name expansion_id base_initials : String)
    (is_promo : Bool) (card_number card_name : String) (card_rarity : Nat)
    (is_pack_specific : Bool) (pack_url : Option String) :
    Except String CardData :=
  (deriveSetFields set_name base_initials is_promo is_pack_specific
      pack_url).map fun p =>
    { card_number := card_number
      card_name := card_name
      card_rarity := card_rarity
      card_set := p.1
      card_set_name := p.2
      card_set_base_name := set_name
      expansion_id := if is_promo then "Promo-a" else pyCapitalize expansion_id
      card_desirability := 0
      card_tradable := false
      card_obtainable :=
        if is_promo then false else !([8, 9, 10, 11, 12].contains card_rarity) }

/-- The URL-path segments of lines 262: strip the card-page prefix from the
matched URL and split on slashes. -/
def parseCardParts (best_match_url : String) : List (List Char) :=
  pySplitChar '/' (pyReplace (BASE_URL ++ "/cards/").data [] best_match_url.data)

/-- Lines 258-303 after a below-threshold match: the Python truthiness test
on `best_match_url`, URL parsing (skip when fewer than 3 segments), rarity
extraction (which may raise `IndexError`), the catalog lookup, and the record
construction. -/
def finishRecord (set_name expansion_id base_initials : String)
    (is_promo : Bool) (json_key : String)
    (online_cards : List (String × OnlineCard))
    (best_match_url filename : String) :
    Except String (Option (Bool × String × CardData)) :=
  if best_match_url = "" then pure none
  else if (parseCardParts best_match_url).length < 3 then pure none
  else
    match get_card_rarity_from_filename filename with
    | .error e => .error e
    | .ok card_rarity =>
      match lookupStr online_cards best_match_url with
      | none => .error "KeyError"
      | some cd =>
        match mkCardData set_name expansion_id base_initials is_promo
            (String.mk ((parseCardParts best_match_url).getD 1 []))
            (slug_to_card_name
              (String.mk ((parseCardParts best_match_url).getD 2 [])))
            card_rarity cd.is_pack_specific cd.pack_url with
        | .error e => .error e
        | .ok r => pure (some (is_promo, json_key, r))

/-- The per-image body of the local loop (lines 228-303): key derivation,
class-restricted matching with threshold, then `finishRecord`.  `.ok none` is
a skipped image, `.ok (some (is_promo, key, record))` a produced record,
`.error` an uncaught Python exception. -/
def processLocalImage (set_name expansion_id base_initials : String)
    (online_cards : List (String × OnlineCard)) (filename : String)
    (local_hash : List Bool) :
    Except String (Option (Bool × String × CardData)) :=
  match deriveKey filename with
  | none => pure none
  | some json_key =>
    match acceptMatch local_hash (is_promo_card filename) online_cards with
    | none => pure none
    | some (best_match_url, _) =>
      finishRecord set_name expansion_id base_initials
        (is_promo_card filename) json_key online_cards best_match_url filename

/-- Extension filter of lines 221-222. -/
def hasImageExt (f : String) : Bool :=
  [".png", ".jpg", ".jpeg", ".webp"].any
    (fun e => e.data.isSuffixOf (pyLower f.data))

/-- The local-image loop: fold the per-image body over the folder listing,
accumulating the (regular, promo) record dicts. -/
def processImages (localHash : String → List Bool)
    (image_folder set_name expansion_id base_initials : String)
    (cat : List (String × OnlineCard)) :
    List String → List (String × CardData) × List (String × CardData) →
    Except String (List (String × CardData) × List (String × CardData))
  | [], acc => .ok acc
  | fn :: rest, acc => do
    match ← processLocalImage set_name expansion_id base_initials cat fn
        (localHash (image_folder ++ "/" ++ fn)) with
    | none =>
      processImages localHash image_folder set_name expansion_id base_initials
        cat rest acc
    | some (true, k, r) =>
      processImages localHash image_folder set_name expansion_id base_initials
        cat rest (acc.1, dictInsert acc.2 k r)
    | some (false, k, r) =>
      processImages localHash image_folder set_name expansion_id base_initials
        cat rest (dictInsert acc.1 k r, acc.2)

/-! ## Sorting (lines 312-314, 324-325, 357-364) -/

/-- The sort key `int(card_number.replace('TL', '').replace('P', ''))`;
`none` models the `ValueError` of `int` on a non-numeric remainder. -/
def sortKey (card_number : String) : Option Int :=
  pyInt (pyReplace "P".data [] (pyReplace "TL".data [] card_number.data))

/-- The integer a record is ordered by (only used when `sortKey` is
defined). -/
def keyInt (p : String × CardData) : Int :=
  (sortKey p.2.card_number).getD 0

/-- The record ordering used by `sorted`. -/
def recLe (a b : String × CardData) : Prop := keyInt a ≤ keyInt b

instance : DecidableRel recLe := fun _ _ => Int.decLe _ _

instance : IsTotal (String × CardData) recLe := ⟨fun _ _ => Int.le_total _ _⟩

instance : IsTrans (String × CardData) recLe :=
  ⟨fun _ _ _ h1 h2 => Int.le_trans h1 h2⟩

/-- Python's `sorted(m.items(), key=...)`: evaluate the key on every record
(raising `ValueError` if any fails to parse) and stable-sort ascending. -/
def sortDict (m : List (String × CardData)) :
    Except String (List (String × CardData)) :=
  if m.all (fun p => (sortKey p.2.card_number).isSome) then
    .ok (List.insertionSort recLe m)
  else .error "ValueError"

/-! ## `process_set` (lines 135-333) and the batch `__main__` (lines 347-375) -/

/-- The effectful collaborators `process_set` reads from: filesystem layout,
page fetching (post error-handling, so a failed fetch is an empty list),
image fetching success, and the perceptual hashes of online and local
images. -/
structure Env where
  folderExists : String → Bool
  listDir : String → List String
  fetchPage : String → List (String × String)
  fetchImageOk : String → Bool
  imgHash : String → List Bool
  localHash : String → List Bool

def ASSETS_BASE_PATH : String := "assets"

/-- `process_set`: `.ok none` is the bare `return` taken when the asset
folder or the expansion id is missing (the Python function returns `None`);
`.ok (some (r, p))` is the final `return sorted_regular, sorted_promo`, whose
components are `None` unless the respective dict is nonempty. -/
def processSet (env : Env) (set_name : String) :
    Except String
      (Option (Option (List (String × CardData)) ×
               Option (List (String × CardData)))) := do
  let image_folder := ASSETS_BASE_PATH ++ "/" ++ set_name
  if !(env.folderExists image_folder) then pure none
  else
    match lookupStr SET_NAME_TO_EXPANSION_ID set_name with
    | none => pure none
    | some expansion_id => do
      let base_initials := get_set_initials set_name
      let pack_urls := (get_pack_urls set_name expansion_id).map (fun p => p.1)
      let app := buildAppearances pack_urls env.fetchPage
      let cat0 := buildRegularEntries app env.fetchImageOk env.imgHash
      let cat := addPromoEntries cat0 (env.fetchPage promoPath)
        env.fetchImageOk env.imgHash
      let files := (env.listDir image_folder).filter hasImageExt
      let maps ← processImages env.localHash image_folder set_name
        expansion_id base_initials cat files ([], [])
      let sorted_regular ←
        if maps.1.isEmpty then pure (Option.none)
        else do
          let s ← sortDict maps.1
          pure (some s)
      let sorted_promo ←
        if maps.2.isEmpty then pure (Option.none)
        else do
          let s ← sortDict maps.2
          pure (some s)
      pure (some (sorted_regular, sorted_promo))

/-- One arm of lines 357-364: `if cards:` (false for `None` and for an empty
dict) re-sorts the per-set dict and merges it into the aggregate with
`dict.update`. -/
def mergeBlock (acc : List (String × CardData)) :
    Option (List (String × CardData)) →
    Except String (List (String × CardData))
  | none => pure acc
  | some r =>
    if r.isEmpty then pure acc
    else do
      let s ← sortDict r
      pure (dictUpdate acc s)

/-- One iteration of the batch loop (lines 352-364): unpack the value
returned by `process_set` (raising `TypeError` when it is `None`), re-sort
each nonempty per-set dict, and merge it into the aggregates. -/
def mainStep (env : Env)
    (acc : List (String × CardData) × List (String × CardData))
    (set_name : String) :
    Except String (List (String × CardData) × List (String × CardData)) := do
  match ← processSet env set_name with
  | none => .error "TypeError: cannot unpack non-iterable NoneType object"
  | some (regular_cards, promo_cards) => do
    let acc1 ← mergeBlock acc.1 regular_cards
    let acc2 ← mergeBlock acc.2 promo_cards
    pure (acc1, acc2)

/-- The batch loop over a list of configured sets. -/
def mainAllAux (env : Env) :
    List (String × String) →
    List (String × CardData) × List (String × CardData) →
    Except String (List (String × CardData) × List (String × CardData))
  | [], acc => .ok acc
  | (sn, _) :: rest, acc => do
    mainAllAux env rest (← mainStep env acc sn)

/-- The whole-batch run (`python ProcessCards.py` with no `--setName`):
process every configured set in order and return the two aggregate
mappings as they are dumped to disk. -/
def mainAll (env : Env) :
    Except String (List (String × CardData) × List (String × CardData)) :=
  mainAllAux env SET_NAME_TO_EXPANSION_ID ([], [])

/-! ## Concrete scenarios used by counterexamples and witnesses -/

/-- An environment in which no asset folder exists: every `process_set` call
takes the early `return` at line 139. -/
def envC1 : Env :=
  { folderExists := fun _ => false
    listDir := fun _ => []
    fetchPage := fun _ => []
    fetchImageOk := fun _ => true
    imgHash := fun _ => []
    localHash := fun _ => [] }

/-- An environment in which two different sets (Mythical Island, processed
second, and Triumphant Light, processed fourth) each contribute one regular
card; all hashes coincide, so every local image matches at distance 0. -/
def envC4 : Env :=
  { folderExists := fun _ => true
    listDir := fun p =>
      if p = "assets/Mythical Island" then ["m1_a_b_c_d_C.png"]
      else if p = "assets/Triumphant Light" then ["t1_a_b_c_d_C.png"]
      else []
    fetchPage := fun p =>
      if p = "/sets/a1a/" then
        [("https://www.pokemon-zone.com/cards/x/9/mew/", "imgMI")]
      else if p = "/sets/a2a/" then
        [("https://www.pokemon-zone.com/cards/x/2/dialga/", "imgTL")]
      else []
    fetchImageOk := fun _ => true
    imgHash := fun _ => []
    localHash := fun _ => [] }

/-- The record `envC4` produces for Mythical Island (card number 9). -/
def mi9 : CardData :=
  { card_number := "9", card_name := "Mew", card_rarity := 0,
    card_set := "MI", card_set_name := "Mythical",
    card_set_base_name := "Mythical Island", expansion_id := "A1a",
    card_desirability := 0, card_tradable := false, card_obtainable := true }

/-- The record `envC4` produces for Triumphant Light (card number 2). -/
def tl2 : CardData :=
  { card_number := "2", card_name := "Dialga", card_rarity := 0,
    card_set := "TL", card_set_name := "Triumphant",
    card_set_base_name := "Triumphant Light", expansion_id := "A2a",
    card_desirability := 0, card_tradable := false, card_obtainable := true }

/-- A one-card regular catalog whose entry is at distance 0 from the empty
hash, so any regular-class query matches it. -/
def catC2 : List (String × OnlineCard) :=
  [("https://www.pokemon-zone.com/cards/x/7/mew/",
    { image_url := "i", hash := [], is_promo := false,
      pack_url := some "/sets/a1a/", is_pack_specific := true })]

/-- A regular catalog entry at Hamming distance exactly 10 from the all-zero
64-bit hash. -/
def cardAt10 : OnlineCard :=
  { image_url := "i10"
    hash := List.replicate 10 true ++ List.replicate 54 false
    is_promo := false
    pack_url := some "/p/"
    is_pack_specific := true }

/-- A regular catalog entry at Hamming distance exactly 11 from the all-zero
64-bit hash. -/
def cardAt11 : OnlineCard :=
  { image_url := "i11"
    hash := List.replicate 11 true ++ List.replicate 53 false
    is_promo := false
    pack_url := some "/p/"
    is_pack_specific := true }

/-- A minimal record carrying only a card number, for sort examples. -/
def numRec (n : String) : CardData :=
  { card_number := n, card_name := "", card_rarity := 0, card_set := "",
    card_set_name := "", card_set_base_name := "", expansion_id := "",
    card_desirability := 0, card_tradable := false, card_obtainable := true }

/-- The §8 sort example: card numbers 5, 12, TL3, P1 in insertion order. -/
def exC3 : List (String × CardData) :=
  [("a", numRec "5"), ("b", numRec "12"), ("c", numRec "TL3"),
   ("d", numRec "P1")]

/-- The §8 sort example in stripped-numeric order P1(1), TL3(3), 5, 12. -/
def exC3sorted : List (String × CardData) :=
  [("d", numRec "P1"), ("c", numRec "TL3"), ("a", numRec "5"),
   ("b", numRec "12")]

/-- A two-pack page-fetch collaborator: card `u1` appears only on pack `p1`,
card `u2` on both packs. -/
def fetchC6 : String → List (String × String) := fun p =>
  if p = "p1" then [("u1", "i1"), ("u2", "i2")] else [("u2", "i2b")]

/-- The catalog entry the builder produces for the pack-exclusive card
`u1` under `fetchC6`. -/
def entryC6 : OnlineCard := mkRegEntry (fun _ => []) "i1" ["p1"]

/-- The record derived for a regular Mythical Island card of rarity 9
(a crown-tier card): unobtainable. -/
def rec9C7 : CardData :=
  { card_number := "1", card_name := "Mew", card_rarity := 9, card_set := "MI",
    card_set_name := "Mythical", card_set_base_name := "Mythical Island",
    expansion_id := "A1a", card_desirability := 0, card_tradable := false,
    card_obtainable := false }

/-- The record derived for a Triumphant Light card (a set with no sub-pack
configuration). -/
def recC9 : CardData :=
  { card_number := "1", card_name := "Dialga", card_rarity := 1,
    card_set := "TL", card_set_name := "Triumphant",
    card_set_base_name := "Triumphant Light", expansion_id := "A2a",
    card_desirability := 0, card_tradable := false, card_obtainable := true }

/-- A one-card regular catalog at distance 0 from the empty hash. -/
def catC10 : List (String × OnlineCard) :=
  [("https://www.pokemon-zone.com/cards/x/7/mew/",
    { image_url := "i", hash := [], is_promo := false,
      pack_url := some "/sets/a1a/", is_pack_specific := true })]

/-- The record the per-image body produces for the regular-classified local
image of the `c10` witness. -/
def recC10 : CardData :=
  { card_number := "7", card_name := "Mew", card_rarity := 0, card_set := "MI",
    card_set_name := "Mythical", card_set_base_name := "Mythical Island",
    expansion_id := "A1a", card_desirability := 0, card_tradable := false,
    card_obtainable := true }

/-! ## Helper lemmas -/

set_option maxRecDepth 10000

theorem pySplitChar_ne_nil (sep : Char) (s : List Char) :
    pySplitChar sep s ≠ [] := by
  cases s with
  | nil => simp [pySplitChar]
  | cons c rest =>
    simp only [pySplitChar]
    split
    · simp
    · cases h : pySplitChar sep rest <;> simp

theorem pySplitChar_append (sep : Char) (a b : List Char) :
    pySplitChar sep (a ++ sep :: b) =
      pySplitChar sep a ++ pySplitChar sep b := by
  induction a with
  | nil => simp [pySplitChar]
  | cons c rest ih =>
    by_cases hc : c = sep
    · simp [pySplitChar, hc, ih]
    · simp only [List.cons_append, pySplitChar, if_neg hc, List.append_eq]
      rw [ih]
      cases h : pySplitChar sep rest with
      | nil => exact absurd h (pySplitChar_ne_nil sep rest)
      | cons w ws => simp

theorem stripLeadC_append (f s : List Char) :
    stripLeadC (f ++ '_' :: s) = stripLeadC f ++ '_' :: s := by
  cases f with
  | nil => simp [stripLeadC]
  | cons c rest => by_cases h : c = 'c' <;> simp [stripLeadC, h]

theorem bestMatchAux_spec (h : List Bool) (isP : Bool) :
    ∀ (cat : List (String × OnlineCard)) (best : Option (String × Nat))
      (u : String) (d : Nat), bestMatchAux h isP best cat = some (u, d) →
      (best = some (u, d) ∨
        ∃ e, (u, e) ∈ cat ∧ e.is_promo = isP ∧ hamming h e.hash = d) ∧
      (∀ bu bd, best = some (bu, bd) → d ≤ bd) ∧
      (∀ u' e', (u', e') ∈ cat → e'.is_promo = isP → d ≤ hamming h e'.hash) := by
  intro cat
  induction cat with
  | nil =>
    intro best u d hb
    simp only [bestMatchAux] at hb
    refine ⟨Or.inl hb, ?_, ?_⟩
    · intro bu bd hbd
      rw [hbd] at hb
      cases hb
      exact Nat.le_refl _
    · intro u' e' hm
      cases hm
  | cons p rest ih =>
    intro best u d hb
    obtain ⟨cu, cd⟩ := p
    cases best with
    | none =>
      simp only [bestMatchAux] at hb
      by_cases hc : cd.is_promo = isP
      · rw [if_pos hc] at hb
        obtain ⟨hprov, hbd, hmem⟩ := ih (some (cu, hamming h cd.hash)) u d hb
        have hdle : d ≤ hamming h cd.hash := hbd cu (hamming h cd.hash) rfl
        refine ⟨?_, ?_, ?_⟩
        · rcases hprov with heq | ⟨e, he, hep, hed⟩
          · cases heq
            exact Or.inr ⟨cd, List.mem_cons_self _ _, hc, rfl⟩
          · exact Or.inr ⟨e, List.mem_cons_of_mem _ he, hep, hed⟩
        · intro bu bd hbd2
          cases hbd2
        · intro u' e' hm hp
          rcases List.mem_cons.mp hm with heq | hmem2
          · cases heq
            exact hdle
          · exact hmem u' e' hmem2 hp
      · rw [if_neg hc] at hb
        obtain ⟨hprov, hbd, hmem⟩ := ih none u d hb
        refine ⟨?_, hbd, ?_⟩
        · rcases hprov with heq | ⟨e, he, hep, hed⟩
          · exact Or.inl heq
          · exact Or.inr ⟨e, List.mem_cons_of_mem _ he, hep, hed⟩
        · intro u' e' hm hp
          rcases List.mem_cons.mp hm with heq | hmem2
          · cases heq
            exact absurd hp hc
          · exact hmem u' e' hmem2 hp
    | some b =>
      obtain ⟨bu0, bd0⟩ := b
      simp only [bestMatchAux] at hb
      by_cases hc : cd.is_promo = isP
      · rw [if_pos hc] at hb
        by_cases hlt : hamming h cd.hash < bd0
        · rw [if_pos hlt] at hb
          obtain ⟨hprov, hbd, hmem⟩ := ih (some (cu, hamming h cd.hash)) u d hb
          have hdle : d ≤ hamming h cd.hash := hbd cu (hamming h cd.hash) rfl
          refine ⟨?_, ?_, ?_⟩
          · rcases hprov with heq | ⟨e, he, hep, hed⟩
            · cases heq
              exact Or.inr ⟨cd, List.mem_cons_self _ _, hc, rfl⟩
            · exact Or.inr ⟨e, List.mem_cons_of_mem _ he, hep, hed⟩
          · intro bu bd hbd2
            cases hbd2
            exact Nat.le_trans hdle (Nat.le_of_lt hlt)
          · intro u' e' hm hp
            rcases List.mem_cons.mp hm with heq | hmem2
            · cases heq
              exact hdle
            · exact hmem u' e' hmem2 hp
        · rw [if_neg hlt] at hb
          obtain ⟨hprov, hbd, hmem⟩ := ih (some (bu0, bd0)) u d hb
          have hdle : d ≤ bd0 := hbd bu0 bd0 rfl
          refine ⟨?_, ?_, ?_⟩
          · rcases hprov with heq | ⟨e, he, hep, hed⟩
            · exact Or.inl heq
            · exact Or.inr ⟨e, List.mem_cons_of_mem _ he, hep, hed⟩
          · intro bu bd hbd2
            cases hbd2
            exact hdle
          · intro u' e' hm hp
            rcases List.mem_cons.mp hm with heq | hmem2
            · cases heq
              exact Nat.le_trans hdle (Nat.le_of_not_lt hlt)
            · exact hmem u' e' hmem2 hp
      · rw [if_neg hc] at hb
        obtain ⟨hprov, hbd, hmem⟩ := ih (some (bu0, bd0)) u d hb
        refine ⟨?_, hbd, ?_⟩
        · rcases hprov with heq | ⟨e, he, hep, hed⟩
          · exact Or.inl heq
          · exact Or.inr ⟨e, List.mem_cons_of_mem _ he, hep, hed⟩
        · intro u' e' hm hp
          rcases List.mem_cons.mp hm with heq | hmem2
          · cases heq
            exact absurd hp hc
          · exact hmem u' e' hmem2 hp

theorem bestMatchAux_none (h : List Bool) (isP : Bool) :
    ∀ (cat : List (String × OnlineCard)) (best : Option (String × Nat)),
      bestMatchAux h isP best cat = none →
      best = none ∧ ∀ u e, (u, e) ∈ cat → e.is_promo ≠ isP := by
  intro cat
  induction cat with
  | nil =>
    intro best hb
    simp only [bestMatchAux] at hb
    exact ⟨hb, fun u e hm => absurd hm (List.not_mem_nil _)⟩
  | cons p rest ih =>
    intro best hb
    obtain ⟨cu, cd⟩ := p
    cases best with
    | none =>
      simp only [bestMatchAux] at hb
      by_cases hc : cd.is_promo = isP
      · rw [if_pos hc] at hb
        exact absurd (ih _ hb).1 (by simp)
      · rw [if_neg hc] at hb
        obtain ⟨h1, h2⟩ := ih none hb
        refine ⟨h1, ?_⟩
        intro u e hm
        rcases List.mem_cons.mp hm with heq | hmem2
        · cases heq
          exact hc
        · exact h2 u e hmem2
    | some b =>
      obtain ⟨bu0, bd0⟩ := b
      simp only [bestMatchAux] at hb
      by_cases hc : cd.is_promo = isP
      · rw [if_pos hc] at hb
        by_cases hlt : hamming h cd.hash < bd0
        · rw [if_pos hlt] at hb
          exact absurd (ih _ hb).1 (by simp)
        · rw [if_neg hlt] at hb
          exact absurd (ih _ hb).1 (by simp)
      · rw [if_neg hc] at hb
        exact absurd (ih _ hb).1 (by simp)

theorem acceptMatch_eq_of_bestMatch_some (h : List Bool) (isP : Bool)
    (cat : List (String × OnlineCard)) (u0 : String) (d0 : Nat)
    (hb : bestMatch h isP cat = some (u0, d0)) :
    acceptMatch h isP cat = if 10 < d0 then none else some (u0, d0) := by
  unfold acceptMatch
  rw [hb]

theorem acceptMatch_some (h : List Bool) (isP : Bool)
    (cat : List (String × OnlineCard)) (u : String) (d : Nat)
    (hm : acceptMatch h isP cat = some (u, d)) :
    d ≤ 10 ∧
    (∃ e, (u, e) ∈ cat ∧ e.is_promo = isP ∧ hamming h e.hash = d) ∧
    ∀ u' e', (u', e') ∈ cat → e'.is_promo = isP → d ≤ hamming h e'.hash := by
  cases hb : bestMatch h isP cat with
  | none =>
    unfold acceptMatch at hm
    rw [hb] at hm
    cases hm
  | some b =>
    obtain ⟨u0, d0⟩ := b
    rw [acceptMatch_eq_of_bestMatch_some h isP cat u0 d0 hb] at hm
    by_cases hgt : 10 < d0
    · rw [if_pos hgt] at hm
      cases hm
    · rw [if_neg hgt] at hm
      cases hm
      obtain ⟨hprov, _, hmem⟩ := bestMatchAux_spec h isP cat none u d hb
      rcases hprov with heq | hex
      · cases heq
      · exact ⟨Nat.le_of_not_lt hgt, hex, hmem⟩

theorem acceptMatch_none (h : List Bool) (isP : Bool)
    (cat : List (String × OnlineCard))
    (hm : acceptMatch h isP cat = none) :
    ∀ u' e', (u', e') ∈ cat → e'.is_promo = isP → 10 < hamming h e'.hash := by
  cases hb : bestMatch h isP cat with
  | none =>
    intro u' e' hmem hp
    exact absurd hp ((bestMatchAux_none h isP cat none hb).2 u' e' hmem)
  | some b =>
    obtain ⟨u0, d0⟩ := b
    rw [acceptMatch_eq_of_bestMatch_some h isP cat u0 d0 hb] at hm
    by_cases hgt : 10 < d0
    · intro u' e' hmem hp
      obtain ⟨_, _, hmin⟩ := bestMatchAux_spec h isP cat none u0 d0 hb
      exact Nat.lt_of_lt_of_le hgt (hmin u' e' hmem hp)
    · rw [if_neg hgt] at hm
      cases hm

theorem mem_dictInsert {α : Type} (m : List (String × α)) (k : String) (v : α)
    (p : String × α) (hp : p ∈ dictInsert m k v) : p ∈ m ∨ p = (k, v) := by
  unfold dictInsert at hp
  split at hp
  · rcases List.mem_map.mp hp with ⟨q, hq, he⟩
    by_cases h : q.1 == k
    · right
      rw [if_pos h] at he
      have : q.1 = k := by simpa using h
      rw [← he, this]
    · left
      rw [if_neg h] at he
      rw [← he]
      exact hq
  · rcases List.mem_append.mp hp with h | h
    · exact Or.inl h
    · right
      simpa using h

theorem sortDict_ok (m s : List (String × CardData))
    (hs : sortDict m = .ok s) : s.Pairwise recLe ∧ m.Perm s := by
  unfold sortDict at hs
  split at hs
  · cases hs
    exact ⟨List.sorted_insertionSort recLe m,
      (List.perm_insertionSort recLe m).symm⟩
  · cases hs

theorem exceptBind_ok {ε α β : Type} (a : α) (f : α → Except ε β) :
    (Except.ok a >>= f) = f a := rfl

theorem exceptBind_error {ε α β : Type} (e : ε) (f : α → Except ε β) :
    ((Except.error e : Except ε α) >>= f) = Except.error e := rfl

theorem mergeBlock_spec (acc : List (String × CardData))
    (rc : Option (List (String × CardData)))
    (res : List (String × CardData)) (h : mergeBlock acc rc = .ok res) :
    res = acc ∨ ∃ s, s.Pairwise recLe ∧ res = dictUpdate acc s := by
  cases rc with
  | none =>
    simp only [mergeBlock] at h
    cases h
    exact Or.inl rfl
  | some r =>
    simp only [mergeBlock] at h
    by_cases hre : r.isEmpty
    · rw [if_pos hre] at h
      cases h
      exact Or.inl rfl
    · rw [if_neg hre] at h
      cases hsd : sortDict r with
      | error e =>
        rw [hsd] at h
        cases h
      | ok sr =>
        rw [hsd, exceptBind_ok] at h
        cases h
        exact Or.inr ⟨sr, (sortDict_ok r sr hsd).1, rfl⟩

theorem mainStep_blocks (env : Env)
    (acc : List (String × CardData) × List (String × CardData))
    (sn : String)
    (acc' : List (String × CardData) × List (String × CardData))
    (h : mainStep env acc sn = .ok acc') :
    (acc'.1 = acc.1 ∨
      ∃ s, s.Pairwise recLe ∧ acc'.1 = dictUpdate acc.1 s) ∧
    (acc'.2 = acc.2 ∨
      ∃ s, s.Pairwise recLe ∧ acc'.2 = dictUpdate acc.2 s) := by
  unfold mainStep at h
  cases hps : processSet env sn with
  | error e =>
    rw [hps] at h
    cases h
  | ok v =>
    rw [hps, exceptBind_ok] at h
    cases v with
    | none => cases h
    | some rp =>
      obtain ⟨rc, pc⟩ := rp
      cases h1 : mergeBlock acc.1 rc with
      | error e =>
        simp only [h1, exceptBind_error] at h
        cases h
      | ok acc1 =>
        simp only [h1, exceptBind_ok] at h
        cases h2 : mergeBlock acc.2 pc with
        | error e =>
          simp only [h2, exceptBind_error] at h
          cases h
        | ok acc2 =>
          simp only [h2, exceptBind_ok] at h
          cases h
          exact ⟨mergeBlock_spec acc.1 rc acc1 h1,
            mergeBlock_spec acc.2 pc acc2 h2⟩

theorem mainAllAux_blocks (env : Env) :
    ∀ (sets : List (String × String))
      (acc res : List (String × CardData) × List (String × CardData)),
      mainAllAux env sets acc = .ok res →
      ∃ rb pb : List (List (String × CardData)),
        res.1 = rb.foldl dictUpdate acc.1 ∧
        res.2 = pb.foldl dictUpdate acc.2 ∧
        (∀ b ∈ rb, b.Pairwise recLe) ∧
        (∀ b ∈ pb, b.Pairwise recLe) := by
  intro sets
  induction sets with
  | nil =>
    intro acc res hm
    simp only [mainAllAux] at hm
    cases hm
    exact ⟨[], [], rfl, rfl, by simp, by simp⟩
  | cons p rest ih =>
    intro acc res hm
    obtain ⟨sn, eid⟩ := p
    simp only [mainAllAux] at hm
    cases hs : mainStep env acc sn with
    | error e =>
      rw [hs] at hm
      cases hm
    | ok acc' =>
      rw [hs, exceptBind_ok] at hm
      obtain ⟨rb', pb', h1, h2, h3, h4⟩ := ih acc' res hm
      obtain ⟨hr, hp⟩ := mainStep_blocks env acc sn acc' hs
      rcases hr with hr | ⟨sr, hsr, hr⟩
      · rcases hp with hp | ⟨sp, hsp, hp⟩
        · exact ⟨rb', pb', by rw [h1, hr], by rw [h2, hp], h3, h4⟩
        · refine ⟨rb', sp :: pb', by rw [h1, hr], by rw [h2, hp]; rfl, h3, ?_⟩
          intro b hb
          rcases List.mem_cons.mp hb with heq | hmem
          · rw [heq]; exact hsp
          · exact h4 b hmem
      · rcases hp with hp | ⟨sp, hsp, hp⟩
        · refine ⟨sr :: rb', pb', by rw [h1, hr]; rfl, by rw [h2, hp], ?_, h4⟩
          intro b hb
          rcases List.mem_cons.mp hb with heq | hmem
          · rw [heq]; exact hsr
          · exact h3 b hmem
        · refine ⟨sr :: rb', sp :: pb', by rw [h1, hr]; rfl,
            by rw [h2, hp]; rfl, ?_, ?_⟩
          · intro b hb
            rcases List.mem_cons.mp hb with heq | hmem
            · rw [heq]; exact hsr
            · exact h3 b hmem
          · intro b hb
            rcases List.mem_cons.mp hb with heq | hmem
            · rw [heq]; exact hsp
            · exact h4 b hmem

theorem buildRegularEntries_mem (fetchOk : String → Bool)
    (imgHash : String → List Bool) :
    ∀ (app : List (String × String × List String))
      (acc : List (String × OnlineCard)) (q : String × OnlineCard),
      q ∈ app.foldl
        (fun acc e =>
          if fetchOk e.2.1 then acc ++ [(e.1, mkRegEntry imgHash e.2.1 e.2.2)]
          else acc) acc →
      q ∈ acc ∨
        ∃ iu lst, (q.1, iu, lst) ∈ app ∧ q.2 = mkRegEntry imgHash iu lst := by
  intro app
  induction app with
  | nil =>
    intro acc q hq
    exact Or.inl hq
  | cons e rest ih =>
    intro acc q hq
    rw [List.foldl_cons] at hq
    rcases ih _ q hq with h | ⟨iu, lst, hm, he⟩
    · split at h
      · rcases List.mem_append.mp h with h2 | h2
        · exact Or.inl h2
        · right
          have hq2 : q = (e.1, mkRegEntry imgHash e.2.1 e.2.2) := by
            simpa using h2
          refine ⟨e.2.1, e.2.2, ?_, ?_⟩
          · rw [hq2]
            exact List.mem_cons_self _ _
          · rw [hq2]
      · exact Or.inl h
    · exact Or.inr ⟨iu, lst, List.mem_cons_of_mem _ hm, he⟩



theorem finishRecord_some (sn eid bi : String) (ip : Bool) (jk : String)
    (cat : List (String × OnlineCard)) (u fn : String)
    (b : Bool) (k : String) (r : CardData)
    (hf : finishRecord sn eid bi ip jk cat u fn = .ok (some (b, k, r))) :
    b = ip ∧ k = jk := by
  unfold finishRecord at hf
  split at hf
  · cases hf
  · split at hf
    · cases hf
    · split at hf
      · cases hf
      · split at hf
        · cases hf
        · split at hf
          · cases hf
          · injection hf with h1
            injection h1 with h2
            have h3 := congrArg Prod.fst h2
            have h4 := congrArg (fun p => p.2.1) h2
            exact ⟨h3.symm, h4.symm⟩

theorem processLocalImage_some (sn eid bi : String)
    (cat : List (String × OnlineCard)) (fn : String) (lh : List Bool)
    (b : Bool) (k : String) (r : CardData)
    (hp : processLocalImage sn eid bi cat fn lh = .ok (some (b, k, r))) :
    b = is_promo_card fn ∧ deriveKey fn = some k ∧
    ∃ u d, acceptMatch lh (is_promo_card fn) cat = some (u, d) ∧
      ∃ e, (u, e) ∈ cat ∧ e.is_promo = is_promo_card fn := by
  unfold processLocalImage at hp
  cases hk : deriveKey fn with
  | none =>
    rw [hk] at hp
    cases hp
  | some jk =>
    rw [hk] at hp
    cases ha : acceptMatch lh (is_promo_card fn) cat with
    | none =>
      rw [ha] at hp
      cases hp
    | some ud =>
      obtain ⟨u, d⟩ := ud
      rw [ha] at hp
      obtain ⟨hb, hkj⟩ := finishRecord_some sn eid bi (is_promo_card fn) jk
        cat u fn b k r hp
      obtain ⟨-, hex, -⟩ := acceptMatch_some lh (is_promo_card fn) cat u d ha
      obtain ⟨e, he, hep, -⟩ := hex
      exact ⟨hb, by rw [hkj], u, d, rfl, e, he, hep⟩

theorem processImages_mem (lh : String → List Bool)
    (folder sn eid bi : String) (cat : List (String × OnlineCard)) :
    ∀ (files : List String)
      (acc res : List (String × CardData) × List (String × CardData)),
      processImages lh folder sn eid bi cat files acc = .ok res →
      (∀ p ∈ res.1, p ∈ acc.1 ∨
        ∃ f ∈ files, is_promo_card f = false ∧ deriveKey f = some p.1) ∧
      (∀ p ∈ res.2, p ∈ acc.2 ∨
        ∃ f ∈ files, is_promo_card f = true ∧ deriveKey f = some p.1) := by
  intro files
  induction files with
  | nil =>
    intro acc res hm
    simp only [processImages] at hm
    cases hm
    exact ⟨fun p hp => Or.inl hp, fun p hp => Or.inl hp⟩
  | cons fn rest ih =>
    intro acc res hm
    simp only [processImages] at hm
    cases hpl : processLocalImage sn eid bi cat fn (lh (folder ++ "/" ++ fn)) with
    | error e =>
      rw [hpl] at hm
      cases hm
    | ok v =>
      rw [hpl, exceptBind_ok] at hm
      cases v with
      | none =>
        obtain ⟨h1, h2⟩ := ih acc res hm
        refine ⟨?_, ?_⟩
        · intro p hp
          rcases h1 p hp with h | ⟨f, hf, hfp⟩
          · exact Or.inl h
          · exact Or.inr ⟨f, List.mem_cons_of_mem _ hf, hfp⟩
        · intro p hp
          rcases h2 p hp with h | ⟨f, hf, hfp⟩
          · exact Or.inl h
          · exact Or.inr ⟨f, List.mem_cons_of_mem _ hf, hfp⟩
      | some t =>
        obtain ⟨b, k, r⟩ := t
        obtain ⟨hb, hk, -⟩ := processLocalImage_some sn eid bi cat fn
          (lh (folder ++ "/" ++ fn)) b k r hpl
        cases b with
        | true =>
          obtain ⟨h1, h2⟩ := ih (acc.1, dictInsert acc.2 k r) res hm
          refine ⟨?_, ?_⟩
          · intro p hp
            rcases h1 p hp with h | ⟨f, hf, hfp⟩
            · exact Or.inl h
            · exact Or.inr ⟨f, List.mem_cons_of_mem _ hf, hfp⟩
          · intro p hp
            rcases h2 p hp with h | ⟨f, hf, hfp⟩
            · rcases mem_dictInsert acc.2 k r p h with h3 | h3
              · exact Or.inl h3
              · refine Or.inr ⟨fn, List.mem_cons_self _ _, hb.symm, ?_⟩
                rw [h3]
                exact hk
            · exact Or.inr ⟨f, List.mem_cons_of_mem _ hf, hfp⟩
        | false =>
          obtain ⟨h1, h2⟩ := ih (dictInsert acc.1 k r, acc.2) res hm
          refine ⟨?_, ?_⟩
          · intro p hp
            rcases h1 p hp with h | ⟨f, hf, hfp⟩
            · rcases mem_dictInsert acc.1 k r p h with h3 | h3
              · exact Or.inl h3
              · refine Or.inr ⟨fn, List.mem_cons_self _ _, hb.symm, ?_⟩
                rw [h3]
                exact hk
            · exact Or.inr ⟨f, List.mem_cons_of_mem _ hf, hfp⟩
          · intro p hp
            rcases h2 p hp with h | ⟨f, hf, hfp⟩
            · exact Or.inl h
            · exact Or.inr ⟨f, List.mem_cons_of_mem _ hf, hfp⟩

/-! ## Claim theorems -/

/-- C1: when a set's asset folder is missing, `process_set` indeed aborts
that set alone with no results (it returns `None`), but the batch run over
all configured sets does NOT survive this: the `__main__` loop unpacks the
`None` into `regular_cards, promo_cards`, which raises `TypeError` and
crashes the whole batch.  Evaluating the embedded code on an environment
with no asset folders exhibits the crash. -/
theorem c1_batch_crash :
    processSet envC1 "Genetic Apex" = .ok none ∧
    mainAll envC1 =
      .error "TypeError: cannot unpack non-iterable NoneType object" := by
  exact ⟨by decide, by decide⟩

/-- C2 counterexample: the filename `aa_bb_cc_dd.png` has exactly 4
underscore-delimited segments, so it passes the key check, and it matches
the one-card catalog at distance 0; yet deriving its rarity raises
`IndexError` (`filename.split("_")[5]` is out of range), refuting the
claimed totality. -/
theorem c2_counterexample :
    (pySplitChar '_' (stripLeadC "aa_bb_cc_dd.png".data)).length = 4 ∧
    deriveKey "aa_bb_cc_dd.png" = some "aa_bb_cc_dd.png" ∧
    processLocalImage "Mythical Island" "a1a" "MI" catC2 "aa_bb_cc_dd.png" []
      = .error "IndexError" := by
  decide

/-- C2 (amended): for every filename with at least 6 underscore-delimited
segments, deriving `card_rarity` is total: the rarity code is the 6th
segment (0-indexed position 5), and codes absent from `RARITY_MAP` yield 0.
For filenames with exactly 4 or 5 segments the derivation instead raises
`IndexError`. -/
theorem c2_rarity_total_six_segments (f : String)
    (h6 : 6 ≤ (pySplitChar '_' f.data).length) :
    ∃ code, (pySplitChar '_' f.data).get? 5 = some code ∧
      get_card_rarity_from_filename f =
        .ok ((lookupStr RARITY_MAP (String.mk code)).getD 0) ∧
      (lookupStr RARITY_MAP (String.mk code) = none →
        get_card_rarity_from_filename f = .ok 0) := by
  have h5 : 5 < (pySplitChar '_' f.data).length :=
    Nat.lt_of_lt_of_le (by norm_num) h6
  refine ⟨(pySplitChar '_' f.data).get ⟨5, h5⟩, List.get?_eq_get h5, ?_, ?_⟩
  · unfold get_card_rarity_from_filename
    rw [List.get?_eq_get h5]
  · intro hn
    unfold get_card_rarity_from_filename
    rw [List.get?_eq_get h5]
    show Except.ok ((lookupStr RARITY_MAP
      (String.mk ((pySplitChar '_' f.data).get ⟨5, h5⟩))).getD 0) = Except.ok 0
    rw [hn]
    rfl

/-- C2 witness: a 6-segment filename with an unknown rarity code maps to
rarity 0 without an error. -/
theorem c2_witness :
    get_card_rarity_from_filename "a_b_c_d_e_ZZ" = .ok 0 := by
  obtain ⟨code, hc, hr, -⟩ :=
    c2_rarity_total_six_segments "a_b_c_d_e_ZZ" (by decide)
  have he : code = "ZZ".data := by
    have h2 : some code = some "ZZ".data := hc.symm.trans (by decide)
    exact Option.some.inj h2
  rw [he] at hr
  rw [hr]
  decide

/-- C3 counterexample: `"X3"` is a digit string with a non-digit prefix, but
the sort key strips only the literal substrings `TL` and `P`; `int("X3")`
raises `ValueError`, so the numeric sort key is NOT well-defined for
arbitrary non-digit prefixes and sorting such a mapping fails. -/
theorem c3_counterexample :
    sortKey "X3" = none ∧
    sortDict [("k", numRec "X3")] = .error "ValueError" := by
  decide

/-- C3 (amended): every mapping that the sorter accepts is returned as a
permutation of itself sorted ascending by the numeric value of
`card_number` after deleting the literal substrings `TL` and `P` (the key
must parse for every record, else `ValueError`), and the §8 example
`5, 12, TL3, P1` sorts to `P1, TL3, 5, 12`. -/
theorem c3_sort_rule :
    (∀ m s, sortDict m = .ok s →
      s.Pairwise recLe ∧ m.Perm s ∧
      ∀ p ∈ m, (sortKey p.2.card_number).isSome = true) ∧
    sortDict exC3 = .ok exC3sorted := by
  constructor
  · intro m s hs
    refine ⟨(sortDict_ok m s hs).1, (sortDict_ok m s hs).2, ?_⟩
    unfold sortDict at hs
    split at hs
    · next hall =>
      intro p hp
      exact List.all_eq_true.mp hall p hp
    · cases hs
  · decide

/-- C3 witness: the §8 example is a sorted permutation of the input. -/
theorem c3_witness :
    exC3sorted.Pairwise recLe ∧ exC3.Perm exC3sorted :=
  ⟨(c3_sort_rule.1 exC3 exC3sorted c3_sort_rule.2).1,
   (c3_sort_rule.1 exC3 exC3sorted c3_sort_rule.2).2.1⟩

/-- C4 counterexample: with sets contributing card numbers 9 (Mythical
Island, processed second) and 2 (Triumphant Light, processed fourth), the
final aggregate regular mapping is `9, 2` in set order — NOT sorted across
the entire mapping by the numeric rule. -/
theorem c4_counterexample :
    mainAll envC4 = .ok ([("m1_a_b_c", mi9), ("t1_a_b_c", tl2)], []) ∧
    ¬ ([("m1_a_b_c", mi9), ("t1_a_b_c", tl2)] :
        List (String × CardData)).Pairwise recLe := by
  constructor
  · decide
  · intro h
    have h2 := List.rel_of_pairwise_cons h (List.mem_singleton.mpr rfl)
    have h3 : ¬ recLe ("m1_a_b_c", mi9) ("t1_a_b_c", tl2) := by decide
    exact h3 h2

/-- C4 (amended): when all sets are processed, each aggregate mapping is the
per-set sorted mappings merged with `dict.update` in set-processing order;
each contributed block is sorted by the numeric `card_number` rule, but the
aggregate is never re-sorted across the entire mapping. -/
theorem c4_aggregate_blocks (env : Env)
    (reg promo : List (String × CardData))
    (hm : mainAll env = .ok (reg, promo)) :
    ∃ rb pb : List (List (String × CardData)),
      reg = rb.foldl dictUpdate [] ∧ promo = pb.foldl dictUpdate [] ∧
      (∀ b ∈ rb, b.Pairwise recLe) ∧ (∀ b ∈ pb, b.Pairwise recLe) := by
  obtain ⟨rb, pb, h1, h2, h3, h4⟩ :=
    mainAllAux_blocks env SET_NAME_TO_EXPANSION_ID ([], []) (reg, promo) hm
  exact ⟨rb, pb, h1, h2, h3, h4⟩

/-- C4 witness: the two-set batch run of `envC4` decomposes into sorted
per-set blocks. -/
theorem c4_witness :
    ∃ rb pb : List (List (String × CardData)),
      [("m1_a_b_c", mi9), ("t1_a_b_c", tl2)] = rb.foldl dictUpdate [] ∧
      ([] : List (String × CardData)) = pb.foldl dictUpdate [] ∧
      (∀ b ∈ rb, b.Pairwise recLe) ∧ (∀ b ∈ pb, b.Pairwise recLe) :=
  c4_aggregate_blocks envC4 _ _ (by decide)

/-- C5: the matcher accepts the minimum-distance same-class entry iff that
minimum Hamming distance is at most 10 (a nearest distance of exactly 10 is
accepted, 11 is rejected), and a rejected query makes the per-image body
return a skip (`.ok none`), not an error, so processing of the remaining
images continues. -/
theorem c5_threshold :
    (∀ (h : List Bool) (isP : Bool) (cat : List (String × OnlineCard))
      (u : String) (d : Nat),
      acceptMatch h isP cat = some (u, d) →
      d ≤ 10 ∧
      (∃ e, (u, e) ∈ cat ∧ e.is_promo = isP ∧ hamming h e.hash = d) ∧
      ∀ u' e', (u', e') ∈ cat → e'.is_promo = isP →
        d ≤ hamming h e'.hash) ∧
    (∀ (h : List Bool) (isP : Bool) (cat : List (String × OnlineCard)),
      acceptMatch h isP cat = none →
      ∀ u' e', (u', e') ∈ cat → e'.is_promo = isP →
        10 < hamming h e'.hash) ∧
    acceptMatch (List.replicate 64 false) false [("u10", cardAt10)] =
      some ("u10", 10) ∧
    acceptMatch (List.replicate 64 false) false [("u11", cardAt11)] = none ∧
    (∀ sn eid bi cat fn lh,
      acceptMatch lh (is_promo_card fn) cat = none →
      processLocalImage sn eid bi cat fn lh = .ok none) := by
  refine ⟨acceptMatch_some, acceptMatch_none, by decide, by decide, ?_⟩
  intro sn eid bi cat fn lh ha
  unfold processLocalImage
  cases hk : deriveKey fn with
  | none => rfl
  | some jk =>
    rw [ha]
    rfl

/-- C5 witness: the boundary-distance entry is accepted at the minimum
distance 10 and belongs to the regular class. -/
theorem c5_witness :
    (10 : Nat) ≤ 10 ∧
    ∃ e, ("u10", e) ∈ [("u10", cardAt10)] ∧ e.is_promo = false ∧
      hamming (List.replicate 64 false) e.hash = 10 :=
  ⟨(c5_threshold.1 (List.replicate 64 false) false [("u10", cardAt10)]
      "u10" 10 c5_threshold.2.2.1).1,
   (c5_threshold.1 (List.replicate 64 false) false [("u10", cardAt10)]
      "u10" 10 c5_threshold.2.2.1).2.1⟩

/-- C6: every regular catalog entry built after scanning all of a set's
packs is non-promo, and records pack specificity exactly: it is
pack-specific iff its appearance list has exactly one entry, its `pack_url`
is non-null iff it is pack-specific, and in that case `pack_url` is the
single recorded appearance. -/
theorem c6_pack_specific_invariant (pack_urls : List String)
    (fetchPage : String → List (String × String)) (fetchOk : String → Bool)
    (imgHash : String → List Bool) (u : String) (e : OnlineCard)
    (hm : (u, e) ∈ buildRegularEntries (buildAppearances pack_urls fetchPage)
      fetchOk imgHash) :
    e.is_promo = false ∧
    ∃ iu lst, (u, iu, lst) ∈ buildAppearances pack_urls fetchPage ∧
      (e.is_pack_specific = true ↔ lst.length = 1) ∧
      (e.pack_url.isSome = true ↔ e.is_pack_specific = true) ∧
      (e.is_pack_specific = true → e.pack_url = lst.head?) := by
  unfold buildRegularEntries at hm
  rcases buildRegularEntries_mem fetchOk imgHash
    (buildAppearances pack_urls fetchPage) [] (u, e) hm with
    h | ⟨iu, lst, hmem, he⟩
  · exact absurd h (List.not_mem_nil _)
  · have he2 : e = mkRegEntry imgHash iu lst := he
    rw [he2]
    unfold mkRegEntry
    by_cases hl : lst.length = 1
    · obtain ⟨x, hx⟩ := List.length_eq_one.mp hl
      refine ⟨rfl, iu, lst, hmem, ?_, ?_, ?_⟩
      · simp [hl]
      · simp [hl, hx]
      · intro
        simp [hl]
    · refine ⟨rfl, iu, lst, hmem, ?_, ?_, ?_⟩
      · simp [hl]
      · simp [hl]
      · intro hc
        exact absurd (by simpa using hc) hl

/-- C6 witness: under a two-pack fetch where `u1` appears only in `p1`, the
builder marks `u1` pack-specific with `pack_url = p1`. -/
theorem c6_witness :
    entryC6.is_promo = false ∧
    ∃ iu lst, ("u1", iu, lst) ∈ buildAppearances ["p1", "p2"] fetchC6 ∧
      (entryC6.is_pack_specific = true ↔ lst.length = 1) ∧
      (entryC6.pack_url.isSome = true ↔ entryC6.is_pack_specific = true) ∧
      (entryC6.is_pack_specific = true → entryC6.pack_url = lst.head?) :=
  c6_pack_specific_invariant ["p1", "p2"] fetchC6 (fun _ => true)
    (fun _ => []) "u1" entryC6 (by decide)

/-- C7: for every derived record, `card_obtainable` is false for promo
cards regardless of rarity; for regular cards it is false iff the rarity is
in the tier set 8..12. -/
theorem c7_obtainable (sn eid bi : String) (ip : Bool) (cn cnm : String)
    (cr : Nat) (ips : Bool) (pu : Option String) (r : CardData)
    (hr : mkCardData sn eid bi ip cn cnm cr ips pu = .ok r) :
    (ip = true → r.card_obtainable = false) ∧
    (ip = false → (r.card_obtainable = false ↔ cr ∈ [8, 9, 10, 11, 12])) := by
  unfold mkCardData at hr
  cases hd : deriveSetFields sn bi ip ips pu with
  | error e =>
    rw [hd] at hr
    cases hr
  | ok p =>
    rw [hd] at hr
    injection hr with h1
    rw [← h1]
    constructor
    · intro hip
      rw [hip]
      rfl
    · intro hip
      rw [hip]
      show (if false = true then false
        else !([8, 9, 10, 11, 12].contains cr)) = false ↔ cr ∈ [8, 9, 10, 11, 12]
      simp [List.contains]
      tauto

/-- C7 witness: a regular card of rarity 9 is derived unobtainable, per the
tier-set rule applied at rarity 9. -/
theorem c7_witness :
    mkCardData "Mythical Island" "a1a" "MI" false "1" "Mew" 9 false none =
      .ok rec9C7 ∧
    rec9C7.card_obtainable = false := by
  refine ⟨by decide, ?_⟩
  exact ((c7_obtainable "Mythical Island" "a1a" "MI" false "1" "Mew" 9 false
    none rec9C7 (by decide)).2 rfl).mpr (by decide)

/-- C8: for any filename whose stripped form has at least 4
underscore-delimited segments, the derived key is the first four segments
joined with underscores (so the derivation is a pure function of the
filename, stable across calls), appending further underscore segments
leaves the key unchanged, and a filename with fewer than 4 segments yields
no key. -/
theorem c8_key_derivation (f : List Char) :
    (4 ≤ (pySplitChar '_' (stripLeadC f)).length →
      deriveKey (String.mk f) =
        some (String.mk
          (joinSep '_' ((pySplitChar '_' (stripLeadC f)).take 4))) ∧
      ∀ s : List Char,
        deriveKey (String.mk (f ++ '_' :: s)) = deriveKey (String.mk f)) ∧
    ((pySplitChar '_' (stripLeadC f)).length < 4 →
      deriveKey (String.mk f) = none) := by
  constructor
  · intro h4
    constructor
    · show (if 4 ≤ (pySplitChar '_' (stripLeadC f)).length
          then some (String.mk
            (joinSep '_' ((pySplitChar '_' (stripLeadC f)).take 4)))
          else none) =
        some (String.mk (joinSep '_' ((pySplitChar '_' (stripLeadC f)).take 4)))
      rw [if_pos h4]
    · intro s
      show (if 4 ≤ (pySplitChar '_' (stripLeadC (f ++ '_' :: s))).length
          then some (String.mk (joinSep '_'
            ((pySplitChar '_' (stripLeadC (f ++ '_' :: s))).take 4)))
          else none) = deriveKey (String.mk f)
      rw [stripLeadC_append, pySplitChar_append]
      have h4' : 4 ≤ (pySplitChar '_' (stripLeadC f) ++
          pySplitChar '_' s).length := by
        rw [List.length_append]
        exact Nat.le_trans h4 (Nat.le_add_right _ _)
      rw [if_pos h4', List.take_append_of_le_length h4]
      show _ = (if 4 ≤ (pySplitChar '_' (stripLeadC f)).length
          then some (String.mk
            (joinSep '_' ((pySplitChar '_' (stripLeadC f)).take 4)))
          else none)
      rw [if_pos h4]
  · intro hlt
    show (if 4 ≤ (pySplitChar '_' (stripLeadC f)).length
        then some (String.mk
          (joinSep '_' ((pySplitChar '_' (stripLeadC f)).take 4)))
        else none) = none
    rw [if_neg (Nat.not_le.mpr hlt)]

/-- C8 witness: a filename with a leading sentinel and five segments keys to
its first four segments, and appending a further segment leaves the key
unchanged. -/
theorem c8_witness :
    deriveKey "cx_a_b_c_d" = some "x_a_b_c" ∧
    deriveKey (String.mk ("cx_a_b_c_d".data ++ '_' :: "e".data)) =
      deriveKey "cx_a_b_c_d" := by
  have h := (c8_key_derivation "cx_a_b_c_d".data).1 (by decide)
  exact ⟨by decide, h.2 "e".data⟩

theorem deriveSetFields_no_packs (sn bi : String) (ips : Bool)
    (pu : Option String) (hs : lookupPacks sn = none)
    (hns : sn ≠ "Space-Time Smackdown") :
    deriveSetFields sn bi false ips pu =
      (pyFirstWord sn).map (fun w => (bi, w)) := by
  have hcs : get_card_set sn pu bi = .ok bi := by
    unfold get_card_set
    rw [hs]
    rfl
  have hcsn : get_card_set_name sn pu = pyFirstWord sn := by
    unfold get_card_set_name
    rw [hs]
    show (match (none : Option (String × String)) with
      | some p => pure (pyCapitalize (String.mk
          ((pySplitChar '-' p.1.data).headD [])))
      | none =>
        if sn = "Space-Time Smackdown" then pure "Space-Time"
        else pyFirstWord sn) = pyFirstWord sn
    rw [if_neg hns]
  cases ips with
  | true =>
    show (do
        let cs ← get_card_set sn pu bi
        let csn ← get_card_set_name sn pu
        pure (cs, csn) : Except String (String × String)) =
      (pyFirstWord sn).map (fun w => (bi, w))
    rw [hcs, exceptBind_ok, hcsn]
    cases hw : pyFirstWord sn with
    | error e => rfl
    | ok w => rfl
  | false =>
    show (do
        let w ← pyFirstWord sn
        pure (bi, w) : Except String (String × String)) =
      (pyFirstWord sn).map (fun w => (bi, w))
    cases hw : pyFirstWord sn with
    | error e => rfl
    | ok w => rfl

/-- C9: for a set with no sub-pack configuration the pack list is a single
whole-set pseudo-pack, and every regular record derived for it has
`card_set` equal to the base initials alone and `card_set_name` equal to
the first word of the set's full name, whether or not the catalog marked
the card pack-specific. -/
theorem c9_no_subpack_set (sn : String) (hs : lookupPacks sn = none) :
    (∀ eid, get_pack_urls sn eid = [("/sets/" ++ eid ++ "/", "")]) ∧
    ∀ eid bi cn cnm cr ips pu r,
      mkCardData sn eid bi false cn cnm cr ips pu = .ok r →
      r.card_set = bi ∧ pyFirstWord sn = .ok r.card_set_name := by
  have hns : sn ≠ "Space-Time Smackdown" := by
    intro he
    rw [he] at hs
    exact absurd hs (by decide)
  constructor
  · intro eid
    unfold get_pack_urls
    rw [hs]
  · intro eid bi cn cnm cr ips pu r hr
    unfold mkCardData at hr
    rw [deriveSetFields_no_packs sn bi ips pu hs hns] at hr
    cases hw : pyFirstWord sn with
    | error e =>
      rw [hw] at hr
      cases hr
    | ok w =>
      rw [hw] at hr
      injection hr with h1
      rw [← h1]
      exact ⟨rfl, rfl⟩

/-- C9 witness: Triumphant Light has no sub-pack configuration; its derived
record for a pack-specific catalog entry carries `card_set = TL` and
`card_set_name = Triumphant`. -/
theorem c9_witness :
    lookupPacks "Triumphant Light" = none ∧
    get_pack_urls "Triumphant Light" "a2a" = [("/sets/a2a/", "")] ∧
    mkCardData "Triumphant Light" "a2a" "TL" false "1" "Dialga" 1 true
      (some "/sets/a2a/") = .ok recC9 ∧
    recC9.card_set = "TL" ∧
    pyFirstWord "Triumphant Light" = .ok recC9.card_set_name := by
  have h := c9_no_subpack_set "Triumphant Light" (by decide)
  have h2 := h.2 "a2a" "TL" "1" "Dialga" 1 true (some "/sets/a2a/") recC9
    (by decide)
  exact ⟨by decide, (h.1 "a2a").trans (by decide), by decide, h2.1, h2.2⟩

/-- C10: a local image is classified promo iff its filename contains the
substring `_90_`; any produced record's class flag equals that
classification, its match came from a catalog entry of the same
promo/regular class, and in the per-set loop every entry of the promo
mapping (resp. regular mapping) originates from a promo-classified (resp.
regular-classified) filename of the folder listing. -/
theorem c10_promo_classification :
    (∀ fn : String, is_promo_card fn = isInfixOfL "_90_".data fn.data) ∧
    (∀ (sn eid bi : String) (cat : List (String × OnlineCard))
      (fn : String) (lh : List Bool) (b : Bool) (k : String) (r : CardData),
      processLocalImage sn eid bi cat fn lh = .ok (some (b, k, r)) →
      b = is_promo_card fn ∧
      ∃ u e, (u, e) ∈ cat ∧ e.is_promo = is_promo_card fn) ∧
    (∀ (lh : String → List Bool) (folder sn eid bi : String)
      (cat : List (String × OnlineCard)) (files : List String)
      (res : List (String × CardData) × List (String × CardData)),
      processImages lh folder sn eid bi cat files ([], []) = .ok res →
      (∀ p ∈ res.2, ∃ f ∈ files,
        is_promo_card f = true ∧ deriveKey f = some p.1) ∧
      (∀ p ∈ res.1, ∃ f ∈ files,
        is_promo_card f = false ∧ deriveKey f = some p.1)) := by
  refine ⟨fun fn => rfl, ?_, ?_⟩
  · intro sn eid bi cat fn lh b k r hp
    obtain ⟨hb, -, u, d, -, e, he, hep⟩ :=
      processLocalImage_some sn eid bi cat fn lh b k r hp
    exact ⟨hb, u, e, he, hep⟩
  · intro lh folder sn eid bi cat files res hm
    obtain ⟨h1, h2⟩ :=
      processImages_mem lh folder sn eid bi cat files ([], []) res hm
    refine ⟨?_, ?_⟩
    · intro p hp
      rcases h2 p hp with h | h
      · exact absurd h (List.not_mem_nil _)
      · exact h
    · intro p hp
      rcases h1 p hp with h | h
      · exact absurd h (List.not_mem_nil _)
      · exact h

/-- C10 witness: a filename without the `_90_` marker is classified regular
and matched against a regular catalog entry. -/
theorem c10_witness :
    false = is_promo_card "aa_bb_cc_dd_ee_C.png" ∧
    ∃ u e, (u, e) ∈ catC10 ∧
      e.is_promo = is_promo_card "aa_bb_cc_dd_ee_C.png" :=
  c10_promo_classification.2.1 "Mythical Island" "a1a" "MI" catC10
    "aa_bb_cc_dd_ee_C.png" [] false "aa_bb_cc_dd" recC10 (by decide)
